import Mathlib

/-!
Verification development for the iron-man-table gesture/chart application.

The definitions below are a shallow embedding of the TypeScript source:
coordinates are exact rationals, the per-frame mutable refs become an
explicit `SceneState`, and the `renderLoop` gesture handling becomes a
state-transition function.  Where the source compares a Euclidean
distance `Math.sqrt(...)` against a nonnegative radius, the embedding
compares the squared distance against the squared radius; the
equivalence with the source's square-root form is proved in
`pinch_flag_strict_threshold`.
-/

namespace IronManTable

/-- A normalized point, as produced by the hand-landmark detector. -/
structure Pt where
  x : ℚ
  y : ℚ
deriving DecidableEq, Repr

/-- One detected hand: 21 normalized landmarks. -/
def Hand := Fin 21 → Pt

/-- Squared Euclidean distance between two normalized points. -/
def sqDist (a b : Pt) : ℚ :=
  (a.x - b.x) ^ 2 + (a.y - b.y) ^ 2

/-- Squared distance between landmark 4 (thumb tip) and landmark 8 (index tip). -/
def pinchSqDist (h : Hand) : ℚ :=
  sqDist (h 4) (h 8)

/-- `isPinching` computed per frame: the source tests
`Math.sqrt(dx^2+dy^2) < 0.05`; in squared form, `dx^2+dy^2 < 1/400`. -/
def handIsPinching (h : Hand) : Bool :=
  decide (pinchSqDist h < 1 / 400)

/-- A draggable table icon.  The source gives each table a string id
`` `${tableName}-${Date.now()}-${index}` ``. -/
structure TableObject where
  id : String
  name : String
  x : ℚ
  y : ℚ
  isDragging : Bool
deriving DecidableEq, Repr

/-- `pinchStateRef.current`. -/
structure PinchState where
  isPinching : Bool
  x : ℚ
  y : ℚ
deriving DecidableEq, Repr

/-- The mutable refs touched by the pinch branch of `renderLoop`,
gathered into one state record. -/
structure SceneState where
  tables : List TableObject
  draggedTable : Option String
  droppedTables : List String
  generateButtonHover : Bool
  buttonClicked : Bool
  pinch : PinchState
deriving DecidableEq, Repr

/-- Canvas dimensions in pixels. -/
structure Canvas where
  width : ℚ
  height : ℚ
deriving DecidableEq, Repr

/-- A normalized rectangle given by center and size. -/
structure ZoneRect where
  x : ℚ
  y : ℚ
  width : ℚ
  height : ℚ
deriving DecidableEq, Repr

/-- The drop zone: `{x: 0.5, y: 0.7, width: 0.3, height: 0.2}`. -/
def dropZone : ZoneRect := ⟨1/2, 7/10, 3/10, 1/5⟩

/-- `Math.max(0.05, Math.min(0.95, v))`. -/
def clampCoord (v : ℚ) : ℚ :=
  max (1/20) (min (19/20) v)

/-- Replace the first element satisfying `p` (the source finds the object
and mutates it in place). -/
def updateFirst (p : TableObject → Bool) (f : TableObject → TableObject) :
    List TableObject → List TableObject
  | [] => []
  | t :: ts => if p t then f t :: ts else t :: updateFirst p f ts

/-- `if (!droppedTables.includes(name)) droppedTables.push(name)`. -/
def dropAppend (dropped : List String) (nm : String) : List String :=
  if nm ∈ dropped then dropped else dropped ++ [nm]

/-- Drop-zone membership test on a table's current position
(`tableX >= left && tableX <= right && tableY >= top && tableY <= bottom`). -/
def inDropZone (t : TableObject) : Bool :=
  decide (dropZone.x - dropZone.width / 2 ≤ t.x) &&
  decide (t.x ≤ dropZone.x + dropZone.width / 2) &&
  decide (dropZone.y - dropZone.height / 2 ≤ t.y) &&
  decide (t.y ≤ dropZone.y + dropZone.height / 2)

/-- The generate-button hit test, with the normalized rectangle derived
from pixel geometry exactly as in the source. -/
def inButton (cv : Canvas) (px py : ℚ) : Bool :=
  let buttonX := (dropZone.x * cv.width + (dropZone.width * cv.width) / 2 + 60) / cv.width
  let buttonY := (dropZone.y * cv.height) / cv.height
  let buttonWidth := 120 / cv.width
  let buttonHeight := 40 / cv.height
  decide (buttonX - buttonWidth / 2 ≤ px) &&
  decide (px ≤ buttonX + buttonWidth / 2) &&
  decide (buttonY - buttonHeight / 2 ≤ py) &&
  decide (py ≤ buttonY + buttonHeight / 2)

/-- Table hit test: the source compares the Euclidean distance to
`60 / min(width, height)`; squared form here. -/
def tableHit (cv : Canvas) (px py : ℚ) (t : TableObject) : Bool :=
  let sz := 60 / min cv.width cv.height
  decide ((px - t.x) ^ 2 + (py - t.y) ^ 2 < sz ^ 2)

/-- Pinch start (`false→true` transition): button hit test first, else
first table within the hit radius becomes the dragged table. -/
def pinchStart (cv : Canvas) (px py : ℚ) (st : SceneState) : SceneState :=
  let st1 :=
    if inButton cv px py then
      { st with generateButtonHover := true, buttonClicked := true }
    else
      match st.tables.find? (fun t => tableHit cv px py t) with
      | some t =>
          { st with
            draggedTable := some t.id,
            tables := updateFirst (fun u => tableHit cv px py u)
              (fun u => { u with isDragging := true }) st.tables }
      | none => st
  { st1 with pinch := ⟨true, px, py⟩ }

/-- Pinch continuation: translate the dragged table by the pinch delta,
clamping each axis into `[0.05, 0.95]`. -/
def pinchMove (px py : ℚ) (st : SceneState) : SceneState :=
  let tables' :=
    match st.draggedTable with
    | some id =>
        updateFirst (fun t => t.id == id)
          (fun t =>
            { t with
              x := clampCoord (t.x + (px - st.pinch.x)),
              y := clampCoord (t.y + (py - st.pinch.y)) }) st.tables
    | none => st.tables
  { st with tables := tables', pinch := ⟨true, px, py⟩ }

/-- Distance-triggered pinch release (source lines with the drop-zone
test): reset both button latches, clear the dragged table's flag, append
its name to the dropped list when it sits inside the drop zone, release
the drag reference, reset the pinch state. -/
def releasePinch (st : SceneState) : SceneState :=
  let st1 : SceneState := { st with generateButtonHover := false, buttonClicked := false }
  let st2 : SceneState :=
    match st1.draggedTable with
    | some id =>
        match st1.tables.find? (fun t => t.id == id) with
        | some t =>
            { st1 with
              tables := updateFirst (fun u => u.id == id)
                (fun u => { u with isDragging := false }) st1.tables,
              droppedTables :=
                if inDropZone t then dropAppend st1.droppedTables t.name
                else st1.droppedTables,
              draggedTable := none }
        | none => { st1 with draggedTable := none }
    | none => st1
  { st2 with pinch := ⟨false, 0, 0⟩ }

/-- Hands-lost release: the source only resets the hover flag, clears the
dragged table's flag and the drag reference — no drop-zone test, and the
`buttonClicked` latch is left as it was. -/
def handsLostRelease (st : SceneState) : SceneState :=
  let st1 : SceneState := { st with generateButtonHover := false }
  let st2 : SceneState :=
    match st1.draggedTable with
    | some id =>
        { st1 with
          tables := updateFirst (fun t => t.id == id)
            (fun t => { t with isDragging := false }) st1.tables,
          draggedTable := none }
    | none => st1
  { st2 with pinch := ⟨false, 0, 0⟩ }

/-- Processing of one hand inside the per-frame landmark loop. -/
def handStep (cv : Canvas) (h : Hand) (st : SceneState) : SceneState :=
  if handIsPinching h then
    let px := 1 - ((h 4).x + (h 8).x) / 2
    let py := ((h 4).y + (h 8).y) / 2
    if st.pinch.isPinching then pinchMove px py st
    else pinchStart cv px py st
  else if st.pinch.isPinching then releasePinch st
  else st

/-- One render tick of the pinch interpreter: iterate over all detected
hands, or run the hands-lost safety release when none are detected. -/
def pinchTick (cv : Canvas) (hands : List Hand) (st : SceneState) : SceneState :=
  if hands.isEmpty then
    if st.pinch.isPinching then handsLostRelease st else st
  else
    hands.foldl (fun s hd => handStep cv hd s) st

/-- The trajectory of the `isPinching` flag across one tick (initial
value, then its value after each processed hand). -/
def tickPinchTrace (cv : Canvas) (hands : List Hand) (st : SceneState) : List Bool :=
  if hands.isEmpty then
    [st.pinch.isPinching, (pinchTick cv hands st).pinch.isPinching]
  else
    (hands.scanl (fun s hd => handStep cv hd s) st).map (fun s => s.pinch.isPinching)

/-- Number of value changes along a boolean trace. -/
def countChanges : List Bool → Nat
  | [] => 0
  | [_] => 0
  | a :: b :: rest => (if a ≠ b then 1 else 0) + countChanges (b :: rest)

/-- `swipeStateRef.current`.  Times are in milliseconds. -/
structure SwipeState where
  isTracking : Bool
  startX : ℚ
  startY : ℚ
  currentX : ℚ
  currentY : ℚ
  startTime : ℚ
deriving DecidableEq, Repr

/-- Index finger extended: tip (landmark 8) above the PIP joint
(landmark 6) in image space, where y grows downward. -/
def indexExtended (h : Hand) : Bool :=
  decide ((h 8).y < (h 6).y)

/-- One tick of swipe detection while the chart overlay is shown.
Returns the updated state and whether the dismiss gesture fired. -/
def swipeTick (h : Hand) (now : ℚ) (sw : SwipeState) : SwipeState × Bool :=
  if indexExtended h then
    let currentX := 1 - (h 8).x
    let currentY := (h 8).y
    if sw.isTracking then
      let sw1 : SwipeState := { sw with currentX := currentX, currentY := currentY }
      let deltaX := currentX - sw1.startX
      let deltaY := |currentY - sw1.startY|
      let timeElapsed := now - sw1.startTime
      if |deltaX| > 3/10 ∧ deltaY < 1/5 ∧ timeElapsed < 1000 then
        ({ sw1 with isTracking := false }, true)
      else if timeElapsed > 1000 then
        ({ sw1 with isTracking := false }, false)
      else
        (sw1, false)
    else
      (⟨true, currentX, currentY, currentX, currentY, now⟩, false)
  else
    ({ sw with isTracking := false }, false)

/-- The chart overlay animation phase. -/
inductive ChartAnimState where
  | hidden
  | entering
  | visible
  | exiting
deriving DecidableEq, Repr

/-- Scale and opacity computed in `renderChartView` from the animation
phase and the elapsed milliseconds since the phase started. -/
def chartScaleOpacity (s : ChartAnimState) (elapsed : ℚ) : ℚ × ℚ :=
  match s with
  | .entering =>
      let animationProgress := min (elapsed / 800) 1
      let eased := 1 - (1 - animationProgress) ^ 3
      (3/10 + 7/10 * eased, eased)
  | .exiting =>
      let animationProgress := min (elapsed / 600) 1
      let eased := 1 - (1 - animationProgress) ^ 2
      (1 - 7/10 * eased, 1 - eased)
  | _ => (1, 1)

/-- A JavaScript field value; `missing` stands for an absent property. -/
inductive Val where
  | num (q : ℚ)
  | str (s : String)
  | missing
deriving DecidableEq, Repr

/-- A fetched record: its `_table` tag plus its remaining fields in
property order. -/
structure Rec where
  tbl : String
  fields : List (String × Val)
deriving DecidableEq, Repr

/-- `chartData` as handed to the renderer. -/
structure ChartData where
  tables : List String
  records : List Rec
deriving DecidableEq, Repr

/-- The chart-overlay portion of the component state touched by
`hideChartWithAnimation`'s completion timeout. -/
structure ChartOverlayState where
  showChart : Bool
  animState : ChartAnimState
  chartTables : List String
  chartRecords : List Rec
  droppedTables : List String
deriving DecidableEq, Repr

/-- Start of the exit animation (`setChartAnimationState("exiting")`). -/
def hideChartStart (c : ChartOverlayState) : ChartOverlayState :=
  { c with animState := .exiting }

/-- The 600 ms timeout body of `hideChartWithAnimation`: hide the chart,
clear the dataset and the dropped-tables list. -/
def hideChartFinish (c : ChartOverlayState) : ChartOverlayState :=
  { c with
    showChart := false,
    animState := .hidden,
    chartTables := [],
    chartRecords := [],
    droppedTables := [] }

/-- Does the character list start with the given needle? -/
def startsWithList : List Char → List Char → Bool
  | _, [] => true
  | [], _ :: _ => false
  | h :: hs, n :: ns => h == n && startsWithList hs ns

/-- Contiguous-substring occurrence on character lists. -/
def containsList : List Char → List Char → Bool
  | [], needle => needle.isEmpty
  | h :: hs, needle => startsWithList (h :: hs) needle || containsList hs needle

/-- JavaScript `s.toLowerCase()` (ASCII, as all names in the source are). -/
def strToLower (s : String) : String :=
  ⟨s.data.map Char.toLower⟩

/-- JavaScript `hay.includes(needle)` on strings. -/
def jsIncludes (hay needle : String) : Bool :=
  containsList hay.data needle.data

/-- JavaScript `s.startsWith(pre)`. -/
def jsStartsWith (s pre : String) : Bool :=
  startsWithList s.data pre.data

/-- Property lookup, `missing` when the key is absent. -/
def getField (r : Rec) (k : String) : Val :=
  match r.fields.find? (fun p => p.1 == k) with
  | some p => p.2
  | none => .missing

/-- JavaScript truthiness of a field value. -/
def valTruthy : Val → Bool
  | .num q => decide (q ≠ 0)
  | .str s => decide (s ≠ "")
  | .missing => false

/-- JavaScript `a || b`. -/
def jsOr (a b : Val) : Val :=
  if valTruthy a then a else b

/-- JavaScript `{...r, k: v}`: an existing key keeps its position and is
overwritten, a fresh key is appended. -/
def setField (r : Rec) (k : String) (v : Val) : Rec :=
  if r.fields.any (fun p => p.1 == k) then
    { r with fields := r.fields.map (fun p => if p.1 == k then (k, v) else p) }
  else
    { r with fields := r.fields ++ [(k, v)] }

/-- Environment the Data Join Engine runs against: whether the database
module loads, the per-table query outcomes, the outcome of the
events-with-registration-counts join query (each event paired with the
length of its returned registrations array), the result of
`createJoinQuery` guarded by a nonempty schema-relationships list
(abstracted as an oracle, `none` meaning "no join produced"), and the
successive draws of `Math.random()`. -/
structure DataEnv where
  supabaseOk : Bool
  tableRows : String → Except Unit (List Rec)
  eventsJoin : Except Unit (List (Rec × Nat))
  schemaJoin : List String → Option ChartData
  rand : Nat → ℚ

/-- The 8 synthesized demo events:
`registration_count = Math.floor(Math.random() * 50) + 5`. -/
def demoEvents (env : DataEnv) : List Rec :=
  (List.range 8).map fun (i : ℕ) =>
    { tbl := "events",
      fields :=
        [("id", .num ((i : ℚ) + 1)),
         ("title", .str ("Event " ++ toString (i + 1))),
         ("name", .str ("Conference " ++ toString (i + 1))),
         ("registration_count", .num ((⌊env.rand i * 50⌋ : ℤ) + 5))] }

/-- `Map.set`: overwrite in place if the key exists, else append. -/
def assocSet (m : List (Val × Rec)) (k : Val) (v : Rec) : List (Val × Rec) :=
  match m with
  | [] => [(k, v)]
  | (k', v') :: rest => if k' = k then (k, v) :: rest else (k', v') :: assocSet rest k v

/-- `Map.has`. -/
def assocHas (m : List (Val × Rec)) (k : Val) : Bool :=
  m.any (fun p => p.1 == k)

/-- Mutation of the record stored under a key. -/
def assocUpdate (m : List (Val × Rec)) (k : Val) (f : Rec → Rec) : List (Val × Rec) :=
  m.map (fun p => if p.1 == k then (p.1, f p.2) else p)

/-- `event.registration_count++`. -/
def bumpRegCount (r : Rec) : Rec :=
  { r with
    fields := r.fields.map (fun p =>
      if p.1 == "registration_count" then
        (p.1, match p.2 with | .num q => .num (q + 1) | v => v)
      else p) }

/-- Fallback tier of the events+registrations strategy: two independent
full-table fetches with manual counting keyed by
`event_id || eventId || events_id`; on failure of either fetch, the 8
demo events. -/
def fetchSeparateEventsRegistrations (env : DataEnv) : ChartData :=
  if env.supabaseOk then
    match env.tableRows "events", env.tableRows "registrations" with
    | .ok events, .ok registrations =>
        let counts : List (Val × Rec) := events.foldl
          (fun m ev => assocSet m (getField ev "id")
            (setField ev "registration_count" (.num 0))) []
        let counts := registrations.foldl
          (fun m rg =>
            let eventId := jsOr (getField rg "event_id")
              (jsOr (getField rg "eventId") (getField rg "events_id"))
            if valTruthy eventId ∧ assocHas m eventId then
              assocUpdate m eventId bumpRegCount
            else m)
          counts
        { tables := ["events", "registrations"],
          records := counts.map (fun p => { p.2 with tbl := "events" }) }
    | _, _ =>
        { tables := ["events", "registrations"], records := demoEvents env }
  else
    { tables := ["events", "registrations"], records := demoEvents env }

/-- Preferred tier of the events+registrations strategy: the nested-count
join query; on error, the separate-queries fallback. -/
def fetchEventsRegistrationsData (env : DataEnv) : ChartData :=
  if env.supabaseOk then
    match env.eventsJoin with
    | .ok rows =>
        { tables := ["events", "registrations"],
          records := rows.map (fun p =>
            setField { p.1 with tbl := "events" } "registration_count" (.num p.2)) }
    | .error _ => fetchSeparateEventsRegistrations env
  else
    fetchSeparateEventsRegistrations env

/-- The generic demo fallback: 5 rows per table; with exactly two tables,
the second table's rows get a `<firstTable>_id` foreign-key field. -/
def demoRows (env : DataEnv) (tableNames : List String) : List Rec :=
  tableNames.enum.flatMap fun ti =>
    (List.range 5).map fun (i : ℕ) =>
      let base : Rec :=
        { tbl := ti.2,
          fields :=
            [("id", .num ((i : ℚ) + 1)),
             ("value", .num (env.rand (2 * (ti.1 * 5 + i)) * 100)),
             ("name", .str (ti.2 ++ " Item " ++ toString (i + 1))),
             ("title", .str (ti.2 ++ " Title " ++ toString (i + 1)))] }
      if tableNames.length = 2 ∧ ti.1 = 1 then
        { base with
          fields := base.fields ++
            [(tableNames.headD "" ++ "_id",
              .num ((⌊env.rand (2 * (ti.1 * 5 + i) + 1) * 5⌋ : ℤ) + 1))] }
      else base

/-- Does the name list trigger the special events+registrations path? -/
def isEventsRegsPair (tableNames : List String) : Bool :=
  tableNames.any (fun n => jsIncludes (strToLower n) "event") &&
  tableNames.any (fun n => jsIncludes (strToLower n) "registration") &&
  decide (tableNames.length = 2)

/-- `fetchTableData`: the three-tier strategy decision and the generic
per-record fetch, where per-table query errors are skipped (`continue`)
and only a top-level failure reaches the demo fallback. -/
def fetchTableData (env : DataEnv) (tableNames : List String) : ChartData :=
  if isEventsRegsPair tableNames then
    fetchEventsRegistrationsData env
  else
    match (if tableNames.length = 2 then env.schemaJoin tableNames else none) with
    | some cd => cd
    | none =>
        if env.supabaseOk then
          let allData := tableNames.foldl
            (fun acc nm =>
              match env.tableRows nm with
              | .error _ => acc
              | .ok rows => acc ++ rows.map (fun r => { r with tbl := nm }))
            []
          { tables := tableNames, records := allData }
        else
          { tables := tableNames, records := demoRows env tableNames }

/-- Result of `detectTableRelationships`. -/
structure RelResult where
  foreignKey : String
  referencingTable : String
  referencedTable : String
  referencingData : List Rec
  referencedData : List Rec
deriving DecidableEq, Repr

/-- `Object.keys(rows[0] || {})` without the internal `_`-prefixed tag. -/
def columnsOf (rs : List Rec) : List String :=
  match rs with
  | [] => []
  | r :: _ => (r.fields.map (fun p => p.1)).filter (fun k => !(jsStartsWith k "_"))

/-- Columns of one table that reference the other table's name
(case-insensitive substring, or exact `<other>_id` / `<other>id`). -/
def refColumns (cols : List String) (other : String) : List String :=
  cols.filter (fun col =>
    jsIncludes (strToLower col) (strToLower other) ||
    strToLower col == strToLower other ++ "_id" ||
    strToLower col == strToLower other ++ "id")

/-- `detectTableRelationships`: direction table1→table2 is tried first;
the final JavaScript truthiness guard rejects empty-string results. -/
def detectTableRelationships (tableNames : List String) (allData : List Rec) :
    Option RelResult :=
  match tableNames with
  | [table1, table2] =>
      let table1Data := allData.filter (fun r => r.tbl == table1)
      let table2Data := allData.filter (fun r => r.tbl == table2)
      if table1Data.length = 0 ∨ table2Data.length = 0 then none
      else
        let pick : Option (String × String × String × List Rec × List Rec) :=
          match refColumns (columnsOf table1Data) table2 with
          | fk :: _ => some (fk, table1, table2, table1Data, table2Data)
          | [] =>
              match refColumns (columnsOf table2Data) table1 with
              | fk :: _ => some (fk, table2, table1, table2Data, table1Data)
              | [] => none
        match pick with
        | some (fk, refg, refd, rgd, rdd) =>
            if fk = "" ∨ refg = "" ∨ refd = "" then none
            else some ⟨fk, refg, refd, rgd, rdd⟩
        | none => none
  | _ => none

/-! ## Concrete scenarios used by witnesses and counterexamples -/

/-- A frame whose thumb tip and index tip are exactly 0.05 apart. -/
def boundaryHand : Hand := fun i => if i.val = 8 then ⟨1/20, 0⟩ else ⟨0, 0⟩

/-- Canvas dimensions used by the concrete scenarios (the ideal camera
resolution requested by the source). -/
def cvDemo : Canvas := ⟨1280, 720⟩

/-- A hand whose thumb and index tips coincide at the frame center. -/
def pinchHand : Hand := fun _ => ⟨1/2, 1/2⟩

/-- A hand whose thumb and index tips are far apart. -/
def openHand : Hand := fun i => if i.val = 8 then ⟨9/10, 9/10⟩ else ⟨0, 0⟩

/-- The scene before any table has been created or dragged. -/
def emptyScene : SceneState := ⟨[], none, [], false, false, ⟨false, 0, 0⟩⟩

/-- A scene in mid-drag: the dragged table sits inside the drop zone and
both button latches are set. -/
def releaseSt : SceneState :=
  { tables := [⟨"users-0", "users", 1/2, 7/10, true⟩],
    draggedTable := some "users-0",
    droppedTables := [],
    generateButtonHover := true,
    buttonClicked := true,
    pinch := ⟨true, 1/2, 1/2⟩ }

/-- Two tagged record sets where only the `posts` records carry a
`users_id` column. -/
def relDataW : List Rec :=
  [⟨"users", [("id", .num 1)]⟩,
   ⟨"posts", [("id", .num 1), ("users_id", .num 1)]⟩]

/-- An environment whose database module fails to load entirely. -/
def envDown : DataEnv :=
  { supabaseOk := false,
    tableRows := fun _ => .error (),
    eventsJoin := .error (),
    schemaJoin := fun _ => none,
    rand := fun _ => 1/2 }

/-- An environment where the module loads but every table query errors. -/
def envBroken : DataEnv :=
  { supabaseOk := true,
    tableRows := fun _ => .error (),
    eventsJoin := .error (),
    schemaJoin := fun _ => none,
    rand := fun _ => 1/2 }

/-! ## Helper lemmas -/

lemma fin21_val_four : ((4 : Fin 21) : ℕ) = 4 := rfl

lemma fin21_val_six : ((6 : Fin 21) : ℕ) = 6 := rfl

lemma fin21_val_eight : ((8 : Fin 21) : ℕ) = 8 := rfl

lemma clampCoord_ge (v : ℚ) : 1/20 ≤ clampCoord v :=
  le_max_left _ _

lemma clampCoord_le (v : ℚ) : clampCoord v ≤ 19/20 :=
  max_le (by norm_num) (min_le_left _ _)

lemma find?_updateFirst (p : TableObject → Bool) (f : TableObject → TableObject)
    (hpf : ∀ a, p a = true → p (f a) = true) :
    ∀ (l : List TableObject) (t0 : TableObject), l.find? p = some t0 →
      (updateFirst p f l).find? p = some (f t0) := by
  intro l
  induction l with
  | nil => intro t0 h; simp [List.find?] at h
  | cons a as ih =>
      intro t0 h
      by_cases hpa : p a = true
      · rw [List.find?_cons_of_pos _ hpa] at h
        injection h with h
        subst h
        rw [updateFirst, if_pos hpa, List.find?_cons_of_pos _ (hpf a hpa)]
      · have hpa' : ¬ p a = true := hpa
        rw [List.find?_cons_of_neg _ hpa'] at h
        rw [updateFirst, if_neg hpa', List.find?_cons_of_neg _ hpa']
        exact ih t0 h

/-! ## Claim theorems -/

/-- C5: for every landmark frame, the computed `isPinching` flag equals
`d < 0.05` where `d` is the Euclidean thumb-tip/index-tip distance, with
strict inequality: `d = 0.05` exactly yields `isPinching = false`. -/
theorem pinch_flag_strict_threshold (h : Hand) :
    (handIsPinching h = true ↔ Real.sqrt ((pinchSqDist h : ℝ)) < 1/20) ∧
    (Real.sqrt ((pinchSqDist h : ℝ)) = 1/20 → handIsPinching h = false) := by
  have hq : handIsPinching h = true ↔ pinchSqDist h < 1/400 := by
    simp [handIsPinching]
  have hcast : pinchSqDist h < 1/400 ↔ ((pinchSqDist h : ℝ) < 1/400) := by
    rw [show ((1:ℝ)/400) = ((1/400 : ℚ) : ℝ) by norm_num]
    exact Rat.cast_lt.symm
  have hsq : Real.sqrt ((pinchSqDist h : ℝ)) < 1/20 ↔ ((pinchSqDist h : ℝ) < 1/400) := by
    rw [Real.sqrt_lt' (by norm_num : (0:ℝ) < 1/20)]
    norm_num
  refine ⟨by rw [hq, hcast, hsq], ?_⟩
  intro heq
  have hnlt : ¬ ((pinchSqDist h : ℝ) < 1/400) := by
    rw [← hsq, heq]; norm_num
  have : ¬ handIsPinching h = true := by
    rw [hq, hcast]; exact hnlt
  simpa using this

/-- Witness for C5 at the boundary distance: the flag is off. -/
theorem pinch_flag_strict_threshold_witness :
    handIsPinching boundaryHand = false := by
  apply (pinch_flag_strict_threshold boundaryHand).2
  have hv : pinchSqDist boundaryHand = 1/400 := by
    norm_num [pinchSqDist, sqDist, boundaryHand, fin21_val_four, fin21_val_eight]
  rw [hv]
  rw [show (((1:ℚ)/400 : ℚ) : ℝ) = (1/20 : ℝ)^2 by norm_num]
  exact Real.sqrt_sq (by norm_num)

/-- C2: on any tick that continues a pinch while a table is dragged, the
dragged table's updated position lies in `[0.05, 0.95]` on both axes,
whatever the drag delta. -/
theorem drag_position_clamped (cv : Canvas) (h : Hand) (st : SceneState)
    (id : String) (t0 : TableObject)
    (hpin : st.pinch.isPinching = true) (hnow : handIsPinching h = true)
    (hdrag : st.draggedTable = some id)
    (hfind : st.tables.find? (fun t => t.id == id) = some t0) :
    ∃ t1, (handStep cv h st).tables.find? (fun t => t.id == id) = some t1 ∧
      1/20 ≤ t1.x ∧ t1.x ≤ 19/20 ∧ 1/20 ≤ t1.y ∧ t1.y ≤ 19/20 := by
  have hstep : handStep cv h st =
      pinchMove (1 - ((h 4).x + (h 8).x) / 2) (((h 4).y + (h 8).y) / 2) st := by
    simp [handStep, hnow, hpin]
  rw [hstep]
  unfold pinchMove
  rw [hdrag]
  simp only
  refine ⟨_, find?_updateFirst _ _ ?_ st.tables t0 hfind, ?_, ?_, ?_, ?_⟩
  · intro a ha; exact ha
  · exact clampCoord_ge _
  · exact clampCoord_le _
  · exact clampCoord_ge _
  · exact clampCoord_le _

/-- Witness for C2 at a concrete dragged state and a huge delta. -/
theorem drag_position_clamped_witness :
    ∃ t1, (handStep ⟨1280, 720⟩ (fun _ => ⟨0, 0⟩)
        { tables := [⟨"users-0", "users", 1/2, 1/2, true⟩],
          draggedTable := some "users-0",
          droppedTables := [],
          generateButtonHover := false,
          buttonClicked := false,
          pinch := ⟨true, 1/2, 1/2⟩ }).tables.find?
        (fun t => t.id == "users-0") = some t1 ∧
      1/20 ≤ t1.x ∧ t1.x ≤ 19/20 ∧ 1/20 ≤ t1.y ∧ t1.y ≤ 19/20 :=
  drag_position_clamped ⟨1280, 720⟩ (fun _ => ⟨0, 0⟩) _ "users-0"
    ⟨"users-0", "users", 1/2, 1/2, true⟩ rfl
    (by norm_num [handIsPinching, pinchSqDist, sqDist]) rfl
    (by simp [List.find?])

/-- C6: the dropped-tables list never acquires duplicates — appending a
present name is the identity, appending preserves `Nodup`, and any
sequence of drop events starting from the empty list stays duplicate-free. -/
theorem dropped_tables_no_duplicates :
    (∀ (d : List String) (nm : String), d.Nodup → (dropAppend d nm).Nodup) ∧
    (∀ (d : List String) (nm : String), nm ∈ d → dropAppend d nm = d) ∧
    (∀ evs : List String, (evs.foldl dropAppend []).Nodup) := by
  have h1 : ∀ (d : List String) (nm : String), d.Nodup → (dropAppend d nm).Nodup := by
    intro d nm hd
    unfold dropAppend
    by_cases hm : nm ∈ d
    · simpa [hm] using hd
    · rw [if_neg hm]
      simp [List.nodup_append, hd, hm]
  refine ⟨h1, ?_, ?_⟩
  · intro d nm hm
    simp [dropAppend, hm]
  · have key : ∀ (evs d : List String), d.Nodup → (evs.foldl dropAppend d).Nodup := by
      intro evs
      induction evs with
      | nil => intro d hd; simpa using hd
      | cons e es ih => intro d hd; exact ih _ (h1 d e hd)
    intro evs
    exact key evs [] (by simp)

/-- Witness for C6: dropping a present name changes nothing and the
result of a repetitive drop sequence is duplicate-free. -/
theorem dropped_tables_no_duplicates_witness :
    dropAppend ["users", "posts"] "users" = ["users", "posts"] ∧
    (["users", "posts", "users", "users"].foldl dropAppend []).Nodup :=
  ⟨dropped_tables_no_duplicates.2.1 ["users", "posts"] "users" (by decide),
   dropped_tables_no_duplicates.2.2 ["users", "posts", "users", "users"]⟩

/-- C4: while swipe tracking is active with the index finger extended, a
dismissal fires exactly when `|Δx| > 0.3`, `|Δy| < 0.2` and the elapsed
time is under 1000 ms; violating any one condition means no fire, and no
fire ever happens outside active extended tracking. -/
theorem swipe_fires_iff_conditions (h : Hand) (now : ℚ) (sw : SwipeState) :
    (swipeTick h now sw).2 = true ↔
      (sw.isTracking = true ∧ indexExtended h = true ∧
       |(1 - (h 8).x) - sw.startX| > 3/10 ∧
       |(h 8).y - sw.startY| < 1/5 ∧
       now - sw.startTime < 1000) := by
  unfold swipeTick
  by_cases hext : indexExtended h = true
  · rw [if_pos hext]
    by_cases htr : sw.isTracking = true
    · rw [if_pos htr]
      dsimp only
      split_ifs with hc ht2
      · exact iff_of_true rfl ⟨htr, hext, hc.1, hc.2.1, hc.2.2⟩
      · exact iff_of_false (by simp)
          (fun hr => hc ⟨hr.2.2.1, hr.2.2.2.1, hr.2.2.2.2⟩)
      · exact iff_of_false (by simp)
          (fun hr => hc ⟨hr.2.2.1, hr.2.2.2.1, hr.2.2.2.2⟩)
    · rw [if_neg htr]
      exact iff_of_false (by simp) (fun hr => htr hr.1)
  · rw [if_neg hext]
    exact iff_of_false (by simp) (fun hr => hext hr.2.1)

/-- C7: the chart animation hits scale 0.3/opacity 0 at the start of the
entering phase, scale 1/opacity 1 at 800 ms, follows cubic ease-out in
between; the exiting phase starts at full scale, reaches scale
0.3/opacity 0 at 600 ms under quadratic ease-out, and the 600 ms timeout
hides the chart and clears the dataset and dropped tables. -/
theorem chart_animation_contract :
    (chartScaleOpacity .entering 0 = (3/10, 0)) ∧
    (chartScaleOpacity .entering 800 = (1, 1)) ∧
    (∀ t : ℚ, 0 ≤ t → t ≤ 800 →
      chartScaleOpacity .entering t =
        (3/10 + 7/10 * (1 - (1 - t/800)^3), 1 - (1 - t/800)^3)) ∧
    (chartScaleOpacity .exiting 0 = (1, 1)) ∧
    (chartScaleOpacity .exiting 600 = (3/10, 0)) ∧
    (∀ t : ℚ, 0 ≤ t → t ≤ 600 →
      chartScaleOpacity .exiting t =
        (1 - 7/10 * (1 - (1 - t/600)^2), (1 - t/600)^2)) ∧
    (∀ c : ChartOverlayState,
      (hideChartFinish c).animState = .hidden ∧
      (hideChartFinish c).showChart = false ∧
      (hideChartFinish c).chartTables = [] ∧
      (hideChartFinish c).chartRecords = [] ∧
      (hideChartFinish c).droppedTables = []) := by
  refine ⟨by norm_num [chartScaleOpacity], by norm_num [chartScaleOpacity],
    ?_, by norm_num [chartScaleOpacity], by norm_num [chartScaleOpacity],
    ?_, fun c => ⟨rfl, rfl, rfl, rfl, rfl⟩⟩
  · intro t h0 h800
    have hmin : min (t / 800) 1 = t / 800 :=
      min_eq_left ((div_le_one (by norm_num)).2 h800)
    simp [chartScaleOpacity, hmin]
  · intro t h0 h600
    have hmin : min (t / 600) 1 = t / 600 :=
      min_eq_left ((div_le_one (by norm_num)).2 h600)
    simp [chartScaleOpacity, hmin]

/-- Witness for C7 at the midpoint of the entering phase. -/
theorem chart_animation_contract_witness :
    chartScaleOpacity .entering 400 =
      (3/10 + 7/10 * (1 - (1 - 400/800)^3), 1 - (1 - 400/800)^3) :=
  chart_animation_contract.2.2.1 400 (by norm_num) (by norm_num)

lemma countChanges_le_pred : ∀ l : List Bool, countChanges l ≤ l.length - 1
  | [] => by simp [countChanges]
  | [_] => by simp [countChanges]
  | a :: b :: rest => by
      have ih := countChanges_le_pred (b :: rest)
      rw [countChanges]
      have hle : (if a ≠ b then 1 else 0) ≤ 1 := by split <;> omega
      simp only [List.length_cons] at ih ⊢
      omega

/-- C9 (amended): per tick the swipe `isTracking` flag changes at most
once, and the pinch `isPinching` flag changes at most once per processed
hand — so one detected hand (or a hands-lost tick) gives at most one
pinch transition, but a two-hand frame may give two. -/
theorem per_tick_transition_bounds :
    (∀ (cv : Canvas) (hands : List Hand) (st : SceneState),
      countChanges (tickPinchTrace cv hands st) ≤ max hands.length 1) ∧
    (∀ (h : Hand) (now : ℚ) (sw : SwipeState),
      countChanges [sw.isTracking, (swipeTick h now sw).1.isTracking] ≤ 1) := by
  have pair : ∀ a b : Bool, countChanges [a, b] ≤ 1 := by
    intro a b
    rw [countChanges]
    simp [countChanges]
    split <;> omega
  constructor
  · intro cv hands st
    unfold tickPinchTrace
    by_cases he : hands.isEmpty
    · rw [if_pos he]
      exact (pair _ _).trans (le_max_right _ _)
    · rw [if_neg he]
      have hlen :
          ((hands.scanl (fun s hd => handStep cv hd s) st).map
            (fun s => s.pinch.isPinching)).length = hands.length + 1 := by
        rw [List.length_map, List.length_scanl]
      calc countChanges _ ≤ _ - 1 := countChanges_le_pred _
        _ = hands.length := by rw [hlen]; omega
        _ ≤ max hands.length 1 := le_max_left _ _
  · intro h now sw
    exact pair _ _

/-- Counterexample to C9: a frame with two detected hands — one pinching,
one open — flips `isPinching` twice within a single tick. -/
theorem two_hand_frame_double_pinch_transition :
    ¬ (countChanges (tickPinchTrace cvDemo [pinchHand, openHand] emptyScene) ≤ 1) := by
  have h1 : tickPinchTrace cvDemo [pinchHand, openHand] emptyScene = [false, true, false] := by
    norm_num [tickPinchTrace, List.scanl, handStep, handIsPinching, pinchSqDist, sqDist,
      pinchHand, openHand, pinchStart, releasePinch, inButton, cvDemo, dropZone,
      emptyScene, List.find?, fin21_val_four, fin21_val_eight]
  rw [h1]
  norm_num [countChanges]

lemma map_updateFirst (p : TableObject → Bool) (f : TableObject → TableObject)
    {β : Type} (g : TableObject → β) (hg : ∀ a, g (f a) = g a) :
    ∀ l : List TableObject, (updateFirst p f l).map g = l.map g := by
  intro l
  induction l with
  | nil => rfl
  | cons a as ih =>
      rw [updateFirst]
      split
      · simp [hg a]
      · simp [ih]

lemma updateFirst_of_find?_none (p : TableObject → Bool) (f : TableObject → TableObject) :
    ∀ l : List TableObject, l.find? p = none → updateFirst p f l = l := by
  intro l
  induction l with
  | nil => intro _; rfl
  | cons a as ih =>
      intro h
      rw [List.find?_cons] at h
      rw [updateFirst]
      split
      · rename_i hpa
        rw [hpa] at h
        cases h
      · rename_i hpa
        have hpa' : p a = false := by
          cases hv : p a
          · rfl
          · exact absurd hv hpa
        rw [hpa'] at h
        rw [ih h]

/-- C10: a distance-triggered pinch release never moves any table — every
table keeps its id, name and position; the only table change is clearing
the dragged table's `isDragging` flag; the dropped list either stays or
gains exactly the released name. -/
theorem pinch_release_preserves_positions (cv : Canvas) (h : Hand) (st : SceneState)
    (hpin : st.pinch.isPinching = true) (hnp : handIsPinching h = false) :
    ((handStep cv h st).tables.map (fun t => (t.id, t.name, t.x, t.y)) =
      st.tables.map (fun t => (t.id, t.name, t.x, t.y))) ∧
    (∀ id, st.draggedTable = some id →
      (handStep cv h st).tables =
        updateFirst (fun t => t.id == id) (fun t => { t with isDragging := false }) st.tables) ∧
    (st.draggedTable = none → (handStep cv h st).tables = st.tables) ∧
    ((handStep cv h st).droppedTables = st.droppedTables ∨
      ∃ nm, nm ∉ st.droppedTables ∧
        (handStep cv h st).droppedTables = st.droppedTables ++ [nm]) := by
  have hrel : handStep cv h st = releasePinch st := by
    simp [handStep, hnp, hpin]
  rw [hrel]
  cases hd : st.draggedTable with
  | none =>
      have hval : releasePinch st =
          { st with
            generateButtonHover := false,
            buttonClicked := false,
            pinch := ⟨false, 0, 0⟩ } := by
        simp [releasePinch, hd]
      rw [hval]
      refine ⟨rfl, ?_, fun _ => rfl, Or.inl rfl⟩
      intro id hid
      exact Option.noConfusion hid
  | some id0 =>
      cases hf : st.tables.find? (fun t => t.id == id0) with
      | none =>
          have hval : releasePinch st =
              { st with
                generateButtonHover := false,
                buttonClicked := false,
                draggedTable := none,
                pinch := ⟨false, 0, 0⟩ } := by
            simp [releasePinch, hd, hf]
          rw [hval]
          refine ⟨rfl, ?_, ?_, Or.inl rfl⟩
          · intro id hid
            injection hid with hid
            subst hid
            exact (updateFirst_of_find?_none _ _ st.tables hf).symm
          · intro hnone
            exact Option.noConfusion hnone
      | some t =>
          have hval : releasePinch st =
              { st with
                generateButtonHover := false,
                buttonClicked := false,
                tables := updateFirst (fun u => u.id == id0)
                  (fun u => { u with isDragging := false }) st.tables,
                droppedTables :=
                  if inDropZone t then dropAppend st.droppedTables t.name
                  else st.droppedTables,
                draggedTable := none,
                pinch := ⟨false, 0, 0⟩ } := by
            simp [releasePinch, hd, hf]
          rw [hval]
          refine ⟨map_updateFirst _ _ _ ?_ st.tables, ?_, ?_, ?_⟩
          · intro a
            rfl
          · intro id hid
            injection hid with hid
            subst hid
            rfl
          · intro hnone
            exact Option.noConfusion hnone
          · by_cases hz : inDropZone t = true
            · by_cases hmem : t.name ∈ st.droppedTables
              · exact Or.inl (by simp [hz, dropAppend, hmem])
              · exact Or.inr ⟨t.name, hmem, by simp [hz, dropAppend, hmem]⟩
            · exact Or.inl (by simp [hz])

/-- Witness for C10: releasing a dragged table over the drop zone keeps
its exact position. -/
theorem pinch_release_preserves_positions_witness :
    ((handStep cvDemo openHand
      { tables := [⟨"users-0", "users", 1/2, 7/10, true⟩],
        draggedTable := some "users-0",
        droppedTables := [],
        generateButtonHover := false,
        buttonClicked := true,
        pinch := ⟨true, 1/2, 1/2⟩ }).tables.map (fun t => (t.id, t.name, t.x, t.y)) =
      [("users-0", "users", 1/2, 7/10)]) := by
  have h := pinch_release_preserves_positions cvDemo openHand
    { tables := [⟨"users-0", "users", 1/2, 7/10, true⟩],
      draggedTable := some "users-0",
      droppedTables := [],
      generateButtonHover := false,
      buttonClicked := true,
      pinch := ⟨true, 1/2, 1/2⟩ } rfl
    (by norm_num [handIsPinching, pinchSqDist, sqDist, openHand,
      fin21_val_four, fin21_val_eight])
  rw [h.1]
  rfl

/-- C1 (amended): a distance-triggered pinch end clears the dragging
flag, applies the drop-zone test with the deduplicating append, releases
the drag reference and resets both button latches; a hands-lost pinch
end only clears the dragging flag, releases the drag reference and
resets the hover flag — it performs no drop-zone test and leaves the
clicked latch unchanged. -/
theorem pinch_end_release_contract :
    (∀ (cv : Canvas) (h : Hand) (st : SceneState) (id : String) (t0 : TableObject),
      st.pinch.isPinching = true → handIsPinching h = false →
      st.draggedTable = some id →
      st.tables.find? (fun t => t.id == id) = some t0 →
      (handStep cv h st).generateButtonHover = false ∧
      (handStep cv h st).buttonClicked = false ∧
      (handStep cv h st).draggedTable = none ∧
      (handStep cv h st).pinch = ⟨false, 0, 0⟩ ∧
      (handStep cv h st).droppedTables =
        (if inDropZone t0 then dropAppend st.droppedTables t0.name
         else st.droppedTables) ∧
      (handStep cv h st).tables.find? (fun t => t.id == id) =
        some { t0 with isDragging := false }) ∧
    (∀ (cv : Canvas) (st : SceneState),
      st.pinch.isPinching = true →
      (pinchTick cv [] st).generateButtonHover = false ∧
      (pinchTick cv [] st).buttonClicked = st.buttonClicked ∧
      (pinchTick cv [] st).droppedTables = st.droppedTables ∧
      (pinchTick cv [] st).draggedTable = none ∧
      (pinchTick cv [] st).pinch = ⟨false, 0, 0⟩ ∧
      (∀ id, st.draggedTable = some id →
        (pinchTick cv [] st).tables =
          updateFirst (fun t => t.id == id)
            (fun t => { t with isDragging := false }) st.tables) ∧
      (st.draggedTable = none → (pinchTick cv [] st).tables = st.tables)) := by
  constructor
  · intro cv h st id t0 hpin hnp hdrag hfind
    have hrel : handStep cv h st = releasePinch st := by
      simp [handStep, hnp, hpin]
    have hval : releasePinch st =
        { st with
          generateButtonHover := false,
          buttonClicked := false,
          tables := updateFirst (fun u => u.id == id)
            (fun u => { u with isDragging := false }) st.tables,
          droppedTables :=
            if inDropZone t0 then dropAppend st.droppedTables t0.name
            else st.droppedTables,
          draggedTable := none,
          pinch := ⟨false, 0, 0⟩ } := by
      simp [releasePinch, hdrag, hfind]
    rw [hrel, hval]
    refine ⟨rfl, rfl, rfl, rfl, rfl, find?_updateFirst _ _ ?_ st.tables t0 hfind⟩
    intro a ha
    exact ha
  · intro cv st hpin
    have hrel : pinchTick cv [] st = handsLostRelease st := by
      simp [pinchTick, hpin]
    rw [hrel]
    cases hd : st.draggedTable with
    | none =>
        have hval : handsLostRelease st =
            { st with
              generateButtonHover := false,
              pinch := ⟨false, 0, 0⟩ } := by
          simp [handsLostRelease, hd]
        rw [hval]
        refine ⟨rfl, rfl, rfl, hd, rfl, ?_, fun _ => rfl⟩
        intro id hid
        exact Option.noConfusion hid
    | some id0 =>
        have hval : handsLostRelease st =
            { st with
              generateButtonHover := false,
              tables := updateFirst (fun t => t.id == id0)
                (fun t => { t with isDragging := false }) st.tables,
              draggedTable := none,
              pinch := ⟨false, 0, 0⟩ } := by
          simp [handsLostRelease, hd]
        rw [hval]
        refine ⟨rfl, rfl, rfl, rfl, rfl, ?_, ?_⟩
        · intro id hid
          injection hid with hid
          subst hid
          rfl
        · intro hnone
          exact Option.noConfusion hnone

/-- Witness for C1 at the mid-drag scene. -/
theorem pinch_end_release_contract_witness :
    (handStep cvDemo openHand releaseSt).droppedTables =
      (if inDropZone ⟨"users-0", "users", 1/2, 7/10, true⟩ then dropAppend [] "users"
       else []) ∧
    (pinchTick cvDemo [] releaseSt).buttonClicked = releaseSt.buttonClicked := by
  constructor
  · exact (pinch_end_release_contract.1 cvDemo openHand releaseSt "users-0"
      ⟨"users-0", "users", 1/2, 7/10, true⟩ rfl
      (by norm_num [handIsPinching, pinchSqDist, sqDist, openHand,
        fin21_val_four, fin21_val_eight]) rfl
      (by simp [releaseSt, List.find?])).2.2.2.2.1
  · exact (pinch_end_release_contract.2 cvDemo releaseSt rfl).2.1

/-- Counterexample to C1: when hands are lost mid-drag with the dragged
table sitting inside the drop zone, the code appends nothing to the
dropped list and leaves the clicked latch set — the claim requires the
append and the latch reset on every pinch end. -/
theorem hands_lost_release_skips_drop_zone :
    (pinchTick cvDemo [] releaseSt).droppedTables = [] ∧
    (pinchTick cvDemo [] releaseSt).buttonClicked = true ∧
    inDropZone ⟨"users-0", "users", 1/2, 7/10, true⟩ = true ∧
    releaseSt.pinch.isPinching = true := by
  refine ⟨?_, ?_, ?_, rfl⟩
  · simp [pinchTick, handsLostRelease, releaseSt]
  · simp [pinchTick, handsLostRelease, releaseSt]
  · norm_num [inDropZone, dropZone]

/-- C8: when exactly one of the two tables carries a column referencing
the other (under the code's own reference-column predicate), the
detection returns the referencing/referenced/foreign-key triple and the
result is identical for both argument orders. -/
theorem relationship_detection_order_independent
    (a b : String) (allData : List Rec) (fk : String) (rest : List String)
    (ha : (allData.filter (fun r => r.tbl == a)).length ≠ 0)
    (hb : (allData.filter (fun r => r.tbl == b)).length ≠ 0)
    (hnoA : refColumns (columnsOf (allData.filter (fun r => r.tbl == a))) b = [])
    (hrefB : refColumns (columnsOf (allData.filter (fun r => r.tbl == b))) a = fk :: rest)
    (hfk : fk ≠ "") (haz : a ≠ "") (hbz : b ≠ "") :
    detectTableRelationships [a, b] allData =
      some ⟨fk, b, a, allData.filter (fun r => r.tbl == b),
        allData.filter (fun r => r.tbl == a)⟩ ∧
    detectTableRelationships [b, a] allData = detectTableRelationships [a, b] allData := by
  have e1 : detectTableRelationships [a, b] allData =
      some ⟨fk, b, a, allData.filter (fun r => r.tbl == b),
        allData.filter (fun r => r.tbl == a)⟩ := by
    simp [detectTableRelationships, ha, hb, hnoA, hrefB, hfk, haz, hbz]
  have e2 : detectTableRelationships [b, a] allData =
      some ⟨fk, b, a, allData.filter (fun r => r.tbl == b),
        allData.filter (fun r => r.tbl == a)⟩ := by
    simp [detectTableRelationships, ha, hb, hrefB, hfk, haz, hbz]
  exact ⟨e1, e2.trans e1.symm⟩

/-- Witness for C8 on the users/posts pair. -/
theorem relationship_detection_order_independent_witness :
    detectTableRelationships ["users", "posts"] relDataW =
      some ⟨"users_id", "posts", "users", relDataW.filter (fun r => r.tbl == "posts"),
        relDataW.filter (fun r => r.tbl == "users")⟩ ∧
    detectTableRelationships ["posts", "users"] relDataW =
      detectTableRelationships ["users", "posts"] relDataW :=
  relationship_detection_order_independent "users" "posts" relDataW "users_id" []
    (by decide) (by decide) (by decide) (by decide)
    (by decide) (by decide) (by decide)

lemma length_flatMap_const5 {α β : Type} (l : List α) (f : α → ℕ → β) :
    (l.flatMap fun ti => (List.range 5).map (f ti)).length = 5 * l.length := by
  induction l with
  | nil => rfl
  | cons a as ih =>
      simp only [List.flatMap_cons, List.length_append, List.length_map,
        List.length_range, List.length_cons, ih]
      ring

lemma demoRows_length (env : DataEnv) (names : List String) :
    (demoRows env names).length = 5 * names.length := by
  unfold demoRows
  rw [length_flatMap_const5, List.enum_length]

lemma fetchSeparate_demo (env : DataEnv)
    (hfail : env.supabaseOk = false ∨ env.tableRows "events" = .error () ∨
      env.tableRows "registrations" = .error ()) :
    fetchSeparateEventsRegistrations env =
      { tables := ["events", "registrations"], records := demoEvents env } := by
  by_cases hok : env.supabaseOk = true
  · rcases hfail with h | h | h
    · rw [h] at hok; cases hok
    · simp [fetchSeparateEventsRegistrations, hok, h]
    · cases he : env.tableRows "events" with
      | ok evs => simp [fetchSeparateEventsRegistrations, hok, he, h]
      | error e => simp [fetchSeparateEventsRegistrations, hok, he]
  · simp [fetchSeparateEventsRegistrations, hok]

lemma demoRows_pair (env : DataEnv) (x y : String) :
    demoRows env [x, y] =
      ((List.range 5).map fun (i : ℕ) =>
        ({ tbl := x,
           fields :=
             [("id", .num ((i : ℚ) + 1)),
              ("value", .num (env.rand (2 * i) * 100)),
              ("name", .str (x ++ " Item " ++ toString (i + 1))),
              ("title", .str (x ++ " Title " ++ toString (i + 1)))] } : Rec)) ++
      ((List.range 5).map fun (i : ℕ) =>
        ({ tbl := y,
           fields :=
             [("id", .num ((i : ℚ) + 1)),
              ("value", .num (env.rand (2 * (5 + i)) * 100)),
              ("name", .str (y ++ " Item " ++ toString (i + 1))),
              ("title", .str (y ++ " Title " ++ toString (i + 1)))] ++
             [(x ++ "_id",
               .num ((⌊env.rand (2 * (5 + i) + 1) * 5⌋ : ℤ) + 1))] } : Rec)) := by
  simp [demoRows, List.enum, List.enumFrom]

/-- C3 (amended): the Data Join Engine is a total function of its
environment; on the events+registrations pair, failure of the join query
together with failure of either separate fetch (or a module-load
failure) yields exactly the 8 demo events with counts in `[5, 55)`;
on the generic path a module-load failure yields 5 demo rows per table,
with a `<firstTable>_id` foreign key appended to the second table's rows
when exactly two tables are selected.  (Per-table query errors inside a
successful load are skipped, not replaced by demo data — see the
counterexample.) -/
theorem fetch_fallback_contract :
    (∀ (env : DataEnv) (names : List String),
      (∀ n, 0 ≤ env.rand n ∧ env.rand n < 1) →
      isEventsRegsPair names = true →
      (env.supabaseOk = false ∨
        (env.eventsJoin = .error () ∧
          (env.tableRows "events" = .error () ∨
           env.tableRows "registrations" = .error ()))) →
      (fetchTableData env names).records = demoEvents env ∧
      (fetchTableData env names).records.length = 8 ∧
      (∀ r ∈ (fetchTableData env names).records,
        ∃ c : ℤ, getField r "registration_count" = .num (c : ℚ) ∧ 5 ≤ c ∧ c < 55)) ∧
    (∀ (env : DataEnv) (names : List String),
      isEventsRegsPair names = false →
      (names.length = 2 → env.schemaJoin names = none) →
      env.supabaseOk = false →
      (fetchTableData env names).records = demoRows env names ∧
      (fetchTableData env names).records.length = 5 * names.length ∧
      (∀ x y : String, names = [x, y] →
        (∀ r ∈ (fetchTableData env names).records.take 5,
          r.tbl = x ∧ r.fields.length = 4) ∧
        (∀ r ∈ (fetchTableData env names).records.drop 5,
          r.tbl = y ∧ ∃ k : ℤ,
            r.fields.getLast? = some (x ++ "_id", .num (k : ℚ))))) := by
  constructor
  · intro env names hrand hpair hfail
    have hred : fetchTableData env names = fetchEventsRegistrationsData env := by
      simp [fetchTableData, hpair]
    have hdemo : fetchEventsRegistrationsData env =
        { tables := ["events", "registrations"], records := demoEvents env } := by
      rcases hfail with h | ⟨hj, hrows⟩
      · rw [fetchEventsRegistrationsData, if_neg (by rw [h]; exact Bool.false_ne_true)]
        exact fetchSeparate_demo env (Or.inl h)
      · by_cases hok : env.supabaseOk = true
        · rw [fetchEventsRegistrationsData, if_pos hok, hj]
          exact fetchSeparate_demo env (Or.inr hrows)
        · rw [fetchEventsRegistrationsData, if_neg hok]
          exact fetchSeparate_demo env (Or.inl (by simpa using hok))
    rw [hred, hdemo]
    refine ⟨rfl, by simp [demoEvents], ?_⟩
    intro r hr
    simp only [demoEvents, List.mem_map, List.mem_range] at hr
    obtain ⟨i, hi, rfl⟩ := hr
    refine ⟨⌊env.rand i * 50⌋ + 5, ?_, ?_, ?_⟩
    · simp [getField]
    · have h0 : (0:ℤ) ≤ ⌊env.rand i * 50⌋ :=
        Int.floor_nonneg.mpr (mul_nonneg (hrand i).1 (by norm_num))
      omega
    · have h1 : ⌊env.rand i * 50⌋ < 50 := by
        rw [Int.floor_lt]
        push_cast
        nlinarith [(hrand i).2]
      omega
  · intro env names hpair hjoin hok
    have hred : fetchTableData env names =
        { tables := names, records := demoRows env names } := by
      by_cases hlen : names.length = 2
      · simp [fetchTableData, hpair, hjoin hlen, hlen, hok]
      · simp [fetchTableData, hpair, hlen, hok]
    rw [hred]
    refine ⟨rfl, demoRows_length env names, ?_⟩
    intro x y hxy
    subst hxy
    constructor
    · intro r hr
      rw [demoRows_pair] at hr
      rw [List.take_left' (by simp)] at hr
      simp only [List.mem_map, List.mem_range] at hr
      obtain ⟨i, hi, rfl⟩ := hr
      exact ⟨rfl, rfl⟩
    · intro r hr
      rw [demoRows_pair] at hr
      rw [List.drop_left' (by simp)] at hr
      simp only [List.mem_map, List.mem_range] at hr
      obtain ⟨i, hi, rfl⟩ := hr
      refine ⟨rfl, ⌊env.rand (2 * (5 + i) + 1) * 5⌋ + 1, ?_⟩
      have hlast :
          ([("id", Val.num ((i : ℚ) + 1)),
            ("value", Val.num (env.rand (2 * (5 + i)) * 100)),
            ("name", Val.str (y ++ " Item " ++ toString (i + 1))),
            ("title", Val.str (y ++ " Title " ++ toString (i + 1)))] ++
           [(x ++ "_id",
             Val.num ((⌊env.rand (2 * (5 + i) + 1) * 5⌋ : ℤ) + 1))]).getLast? =
          some (x ++ "_id",
            Val.num ((⌊env.rand (2 * (5 + i) + 1) * 5⌋ : ℤ) + 1)) := rfl
      rw [hlast]
      push_cast
      ring_nf

/-- Witness for C3: the fully failing environment produces the demo
datasets on both strategy paths. -/
theorem fetch_fallback_contract_witness :
    (fetchTableData envDown ["events", "registrations"]).records.length = 8 ∧
    (fetchTableData envDown ["users", "posts"]).records.length = 5 * 2 := by
  constructor
  · exact (fetch_fallback_contract.1 envDown ["events", "registrations"]
      (fun n => by norm_num [envDown]) (by decide) (Or.inl rfl)).2.1
  · exact (fetch_fallback_contract.2 envDown ["users", "posts"]
      (by decide) (fun _ => rfl) rfl).2.1

/-- Counterexample to C3: with the module loaded but every per-table
query failing, the generic path returns an empty record set rather than
any fallback rows — the chart has nothing to render. -/
theorem per_table_failure_yields_empty_dataset :
    (fetchTableData envBroken ["users"]).records = [] ∧
    (demoRows envBroken ["users"]).length = 5 := by
  constructor
  · have hpair : isEventsRegsPair ["users"] = false := by decide
    simp [fetchTableData, hpair, envBroken]
  · exact demoRows_length envBroken ["users"]

end IronManTable
